import Mathlib

/-!
Shallow embedding of the `@basementuniverse/canvas-helpers` drawing library
(the style-resolution / curve-interpolation / shape-emitter core).

Conventions of the embedding:
* JS numbers are modelled as exact rationals (`ℚ`); binary64 values are
  rationals, and where the floating-point accumulation is observable (the
  curve-sampling loop `t += 0.01`) the binary64 rounding of each addition
  is modelled exactly (`fl59`/`sampleLoop`).
* An object field that may be missing from a caller-supplied object is an
  `Option`; a field whose value may be `null` is a nested `Option` (so
  `some none` models "key supplied with value null" and `none` models
  "key not supplied").
* Side effects on the `CanvasRenderingContext2D` are modelled as a trace:
  each emitter is a pure function returning the ordered list of surface
  calls it issues.  The surface's state machine (attributes, transform,
  save/restore stack) is an explicit interpreter over that trace.
* The rotation angle `vec2.rad(...)` (an arctangent) and the radial
  gradient radius (a square root) are irrational in general; since no
  claim depends on their numeric values, the corresponding calls carry
  the defining vector symbolically instead of the evaluated number.
-/

namespace CanvasHelpers

/-- A 2D point, `vec2` of the external vector library: a plain `{x, y}` pair. -/
structure Vec2 where
  x : ℚ
  y : ℚ
  deriving DecidableEq

/-- The `a` ("alpha") field of a would-be Color object at runtime: missing,
a number, or present with a non-numeric value. -/
inductive AlphaField
  | absent
  | num (a : ℚ)
  | nonNumber
  deriving DecidableEq

/-- A runtime value flowing into `prepareColor`: either a string or an object
whose `r`, `g`, `b` fields may each be present (with a numeric value) or
missing, and whose `a` field is an `AlphaField`. -/
inductive ColorValue
  | str (s : String)
  | obj (r g b : Option ℚ) (a : AlphaField)
  deriving DecidableEq

/-- `isColorObject` from the source: an object with `r`, `g` and `b` present
and `a` either a number or absent. -/
def isColorObject : ColorValue → Bool
  | .str _ => false
  | .obj r g b a =>
      r.isSome && g.isSome && b.isSome &&
        (match a with
         | .num _ => true
         | .absent => true
         | .nonNumber => false)

/-- `colourToString` from the source: render as `rgba(r, g, b, a)` with the
alpha component `color.a ?? 1`. -/
def colourToString (r g b : ℚ) (a : AlphaField) : String :=
  "rgba(" ++ toString r ++ ", " ++ toString g ++ ", " ++ toString b ++ ", " ++
    toString (match a with | .num v => v | _ => (1 : ℚ)) ++ ")"

/-- `prepareColor` from the source: strings pass through; a value passing the
`isColorObject` shape check is rendered by `colourToString`; anything else
falls back to `"black"`.  (The last pattern is exactly the complement of the
`isColorObject` test on object values.) -/
def prepareColor : ColorValue → String
  | .str s => s
  | .obj (some r) (some g) (some b) .absent => colourToString r g b .absent
  | .obj (some r) (some g) (some b) (.num a) => colourToString r g b (.num a)
  | .obj _ _ _ _ => "black"

inductive LineStyle
  | solid
  | dashed
  | dotted
  deriving DecidableEq

inductive CrossStyle
  | plus
  | xShape
  deriving DecidableEq

inductive PathType
  | linear
  | bezier
  | catmullRom
  deriving DecidableEq

inductive GradientType
  | linear
  | radial
  deriving DecidableEq

structure ColorStop where
  color : ColorValue
  position : ℚ
  deriving DecidableEq

/-- The `gradient` style field.  The source's `end` field is named `stop`
here (`end` is reserved in Lean). -/
structure GradientOptions where
  type : GradientType
  start : Vec2
  stop : Vec2
  colorStops : List ColorStop
  deriving DecidableEq

/-- The geometry of a created `CanvasGradient` handle.  A radial gradient is
centered at `(cx, cy)` with inner radius 0 and outer radius half the length
of the vector `(dx, dy)` (the length, a square root, is kept symbolic as the
vector itself). -/
inductive GradientShape
  | linearGrad (x0 y0 x1 y1 : ℚ)
  | radialGrad (cx cy dx dy : ℚ)
  deriving DecidableEq

/-- A constructed `CanvasGradient` handle: its geometry plus the color stops
added to it, in order. -/
structure GradientHandle where
  shape : GradientShape
  stops : List (ℚ × String)
  deriving DecidableEq

/-- `prepareGradient` from the source: `null` in, `null` out; otherwise build
the linear/radial handle and add each color stop in input order, with each
stop color put through `prepareColor`. -/
def prepareGradient : Option GradientOptions → Option GradientHandle
  | none => none
  | some g =>
    some
      { shape :=
          match g.type with
          | .linear => .linearGrad g.start.x g.start.y g.stop.x g.stop.y
          | .radial =>
              .radialGrad g.start.x g.start.y (g.stop.x - g.start.x)
                (g.stop.y - g.start.y)
        stops := g.colorStops.map fun st => (st.position, prepareColor st.color) }

/-- One low-level surface call.  `rotateRad dx dy` is `rotate(vec2.rad((dx, dy)))`,
the angle kept symbolic; `arc x y r` is the full-revolution
`arc(x, y, r, 0, 2π)` used by `circle`. -/
inductive Call
  | save
  | restore
  | strokeStyle (c : String)
  | fillStyleColor (c : String)
  | fillStyleGradient (g : GradientHandle)
  | lineWidth (w : ℚ)
  | setLineDash (d : List ℚ)
  | beginPath
  | moveTo (x y : ℚ)
  | lineTo (x y : ℚ)
  | arc (x y r : ℚ)
  | rect (x y w h : ℚ)
  | roundRect (x y w h r : ℚ)
  | closePath
  | fill
  | stroke
  | translate (x y : ℚ)
  | rotateRad (dx dy : ℚ)
  deriving DecidableEq

/-- The `arrow.type` style field: a named arrowhead or a caller-supplied
drawing function, modelled as the trace of surface calls it issues when
invoked with the arrow size. -/
inductive ArrowType
  | caret
  | chevron
  | custom (draw : ℚ → List Call)

/-- The `arrow` style field's object, with both fields optional. -/
structure ArrowStyle where
  type : Option ArrowType := none
  size : Option ℚ := none

/-- A value carried by an unvalidated extension field of a style object. -/
inductive ExtVal
  | num (q : ℚ)
  | str (s : String)
  | boolean (b : Bool)
  deriving DecidableEq

/-- `Partial<StyleOptions>`: the caller-supplied style object.  Outer
`Option` = key supplied or not; inner `Option` (where present) = the value
may be `null`.  `extra` models the `[key: string]: any` extension fields. -/
structure StyleInput where
  batch : Option Bool := none
  fill : Option Bool := none
  fillColor : Option (Option ColorValue) := none
  gradient : Option (Option GradientOptions) := none
  stroke : Option Bool := none
  strokeColor : Option (Option ColorValue) := none
  lineWidth : Option (Option ℚ) := none
  lineStyle : Option LineStyle := none
  lineDash : Option (Option (List ℚ)) := none
  crossStyle : Option CrossStyle := none
  rounded : Option Bool := none
  borderRadius : Option ℚ := none
  arrow : Option (Option ArrowStyle) := none
  pathType : Option PathType := none
  bezierOrder : Option ℤ := none
  catmullRomTension : Option ℚ := none
  extra : List (String × ExtVal) := []

/-- A fully resolved `StyleOptions` object, the result of `getStyle`.  Fields
that `DEFAULT_STYLE_OPTIONS` does not mention (`borderRadius`, `pathType`,
`bezierOrder`, `catmullRomTension`) stay optional. -/
structure Style where
  batch : Bool
  fill : Bool
  fillColor : Option ColorValue
  gradient : Option GradientOptions
  stroke : Bool
  strokeColor : Option ColorValue
  lineWidth : Option ℚ
  lineStyle : LineStyle
  lineDash : Option (List ℚ)
  crossStyle : CrossStyle
  rounded : Bool
  borderRadius : Option ℚ
  arrow : Option ArrowStyle
  pathType : Option PathType
  bezierOrder : Option ℤ
  catmullRomTension : Option ℚ
  extra : List (String × ExtVal)

/-- `DEFAULT_LINE_DASHES` from the source. -/
def DEFAULT_LINE_DASHES : LineStyle → List ℚ
  | .solid => []
  | .dashed => [5, 5]
  | .dotted => [1, 3]

/-- The `arrow` entry of `DEFAULT_STYLE_OPTIONS`. -/
def DEFAULT_ARROW : ArrowStyle := { type := some .caret, size := some 5 }

/-- `getStyle` from the source:
`Object.assign({}, DEFAULT_STYLE_OPTIONS, { ...(style ?? {}), lineDash: ... })`
rendered field by field.  A supplied key overrides the default (shallow);
`lineDash` is the supplied value when the key is supplied (even `null`),
otherwise `[]` when `lineStyle` was not supplied, otherwise the
`DEFAULT_LINE_DASHES` table entry for the supplied `lineStyle`. -/
def getStyle (style? : Option StyleInput) : Style :=
  let s := style?.getD {}
  { batch := s.batch.getD false
    fill := s.fill.getD false
    fillColor := s.fillColor.getD none
    gradient := s.gradient.getD none
    stroke := s.stroke.getD true
    strokeColor := s.strokeColor.getD none
    lineWidth := s.lineWidth.getD (some 1)
    lineStyle := s.lineStyle.getD .solid
    lineDash :=
      match s.lineDash with
      | some d => d
      | none =>
        match s.lineStyle with
        | none => some []
        | some ls => some (DEFAULT_LINE_DASHES ls)
    crossStyle := s.crossStyle.getD .xShape
    rounded := s.rounded.getD false
    borderRadius := s.borderRadius
    arrow := s.arrow.getD (some DEFAULT_ARROW)
    pathType := s.pathType
    bezierOrder := s.bezierOrder
    catmullRomTension := s.catmullRomTension
    extra := s.extra }

/-- Reinjection of a resolved `StyleOptions` as a `Partial<StyleOptions>`
(in TS the former is assignable to the latter): every key the resolved
object carries is supplied. -/
def asInput (st : Style) : StyleInput :=
  { batch := some st.batch
    fill := some st.fill
    fillColor := some st.fillColor
    gradient := some st.gradient
    stroke := some st.stroke
    strokeColor := some st.strokeColor
    lineWidth := some st.lineWidth
    lineStyle := some st.lineStyle
    lineDash := some st.lineDash
    crossStyle := some st.crossStyle
    rounded := some st.rounded
    borderRadius := st.borderRadius
    arrow := some st.arrow
    pathType := st.pathType
    bezierOrder := st.bezierOrder
    catmullRomTension := st.catmullRomTension
    extra := st.extra }

/-! ### Curve evaluation -/

/-- Modelled from the spec: `dot` from the external vector-arithmetic
library, an excluded collaborator "assumed present and correct": the dot
product of two equal-length number arrays. -/
def dotQ (a b : List ℚ) : ℚ := (List.zipWith (fun x y => x * y) a b).sum

/-- Modelled from the spec: `clamp` from the external utils library:
clamp a value into the interval [lo, hi]. -/
def clampZ (v lo hi : ℤ) : ℤ := min hi (max lo v)

/-- Modelled from the spec: `mat.mulv` of the external matrix library, the
"small matrix-vector multiply helper used for Bezier evaluation": the vector
of row/vector dot products, or `none` (the source's `false` return) when the
vector's length does not match the matrix width. -/
def mulv (m : List (List ℚ)) (v : List ℚ) : Option (List ℚ) :=
  if m.all (fun row => row.length = v.length) then
    some (m.map fun row => dotQ row v)
  else none

/-- `BEZIER_MATRICES` from the source, as row lists (`mat(n, n, entries)` is
row-major).  Orders other than 1..3 never reach a lookup because the order
is clamped to [1, 3] first. -/
def BEZIER_MATRICES : ℕ → List (List ℚ)
  | 1 => [[-1, 1], [1, 0]]
  | 2 => [[1, -2, 1], [-2, 2, 0], [1, 0, 0]]
  | 3 => [[-1, 3, -3, 1], [3, -6, 3, 0], [-3, 3, 0, 0], [1, 0, 0, 0]]
  | _ => []

/-- `BEZIER_COEFFICIENTS` from the source: the monomial vector of `t` for
the given order. -/
def BEZIER_COEFFICIENTS (t : ℚ) : ℕ → List ℚ
  | 1 => [t, 1]
  | 2 => [t * t, t, 1]
  | 3 => [t * t * t, t * t, t, 1]
  | _ => []

/-- The binary64 (JavaScript number) value of the literal `0.01`, scaled by
2^59: `0.01` rounds to 5764607523034235 × 2^-59 (2^-59 is the ulp of the
binade [2^-7, 2^-6) containing 0.01). -/
def STEP_SCALED : ℕ := 5764607523034235

/-- Round a natural number to the nearest multiple of `g`, ties to the even
multiple — the round-to-nearest-even rule of binary64 arithmetic. -/
def roundNearestEven (g S : ℕ) : ℕ :=
  let q := S / g
  let r := S % g
  if 2 * r < g then q * g
  else if g < 2 * r then (q + 1) * g
  else (if q % 2 = 0 then q else q + 1) * g

/-- Binary64 rounding of an exact sum, for the values reached by the
sampling loop: all of them are multiples of 2^-59 below 2, carried as that
multiple, and rounding to 53 significant bits rounds to the granularity of
the value's binade. -/
def fl59 (S : ℕ) : ℕ :=
  if S < 2 ^ 53 then S
  else if S < 2 ^ 54 then roundNearestEven 2 S
  else if S < 2 ^ 55 then roundNearestEven 4 S
  else if S < 2 ^ 56 then roundNearestEven 8 S
  else if S < 2 ^ 57 then roundNearestEven 16 S
  else if S < 2 ^ 58 then roundNearestEven 32 S
  else if S < 2 ^ 59 then roundNearestEven 64 S
  else roundNearestEven 128 S

/-- The accumulator states of `for (let t = 0; t <= 1; t += 0.01)` under
binary64 semantics, scaled by 2^59: t₀ = 0 and t_{k+1} = fl(t_k + fl(0.01)),
iterating while t_k ≤ 1.  Every t_k is a multiple of 2^-59 (fl(0.01) is an
odd multiple of 2^-59 and no value drops below its binade), so the
accumulator is the scaled natural `T = t·2^59` and each addition is the
exact integer sum rounded by `fl59`.  The fuel only bounds the recursion:
each step advances `T` by at least 2^52, so at most 129 iterations can
satisfy the guard, and fuel 200 never cuts the loop short. -/
def sampleLoopScaled : ℕ → ℕ → List ℕ
  | 0, _ => []
  | fuel + 1, T =>
    if T ≤ 2 ^ 59 then T :: sampleLoopScaled fuel (fl59 (T + STEP_SCALED))
    else []

/-- The 2^59-scaled parameter values of the sampling loop. -/
def sampleTsScaled : List ℕ := sampleLoopScaled 200 0

/-- The parameter values sampled by `for (let t = 0; t <= 1; t += 0.01)`.
Under binary64 accumulation the loop runs 100 times (t₉₉ ≈ 0.99; the next
value ≈ 1.0000000000000007 fails `t <= 1`), so t = 1 is never sampled. -/
def sampleTs : List ℚ := sampleTsScaled.map fun (T : ℕ) => (T : ℚ) / 2 ^ 59

/-- The accumulation `p.x += segmentPoints[j].x * q[j]` (and `.y`) over all
`j`, starting from `vec2()` = (0, 0). -/
def bezierCombine (pts : List Vec2) (q : List ℚ) : Vec2 :=
  (List.zipWith (fun (p : Vec2) (c : ℚ) => Vec2.mk (p.x * c) (p.y * c)) pts q).foldl
    (fun p r => Vec2.mk (p.x + r.x) (p.y + r.y)) (Vec2.mk 0 0)

/-- The per-`t` samples of one bezier window: for each `t`, `mat.mulv` of
the order's matrix with the coefficient vector, combined with the window's
control points; `none` marks a `q === false` result (the abort case). -/
def windowSamples (order : ℕ) (pts : List Vec2) : List (Option Vec2) :=
  sampleTs.map fun t =>
    (mulv (BEZIER_MATRICES order) (BEZIER_COEFFICIENTS t order)).map (bezierCombine pts)

/-- Sequentially emit sampled points, stopping at the first `none`: the
points already emitted before the abort, plus the abort flag. -/
def emitUntilAbort : List (Option Vec2) → List Vec2 × Bool
  | [] => ([], false)
  | none :: _ => ([], true)
  | some p :: rest =>
    let r := emitUntilAbort rest
    (p :: r.1, r.2)

/-- The window slices taken by the loop
`for (let i = 0; i + segmentSize <= vertices.length; i += order)`:
`vertices.slice(i, i + order + 1)` with the start advancing by `order`.
(The `1 ≤ order` guard makes the recursion well founded; every call site
clamps the order into [1, 3] first, so the guard matches the source's loop
condition there.) -/
def bezierSegments (order : ℕ) (vs : List Vec2) : List (List Vec2) :=
  if h : 1 ≤ order ∧ order + 1 ≤ vs.length then
    vs.take (order + 1) :: bezierSegments order (vs.drop order)
  else []
termination_by vs.length
decreasing_by
  simp only [List.length_drop]
  omega

/-- Emit the sampled points of successive windows, aborting everything that
follows (including the remaining windows) at the first failed `mulv`. -/
def bezierEmit (order : ℕ) : List (List Vec2) → List Vec2 × Bool
  | [] => ([], false)
  | seg :: rest =>
    let w := emitUntilAbort (windowSamples order seg)
    if w.2 then (w.1, true)
    else
      let r := bezierEmit order rest
      (w.1 ++ r.1, r.2)

/-- The bezier branch of `path`: a `moveTo` to the first window's first
point (only when at least one window exists), then one `lineTo` per sampled
point; the flag records the early `restore(); return` abort. -/
def bezierBody (order : ℕ) (vs : List Vec2) : List Call × Bool :=
  match bezierSegments order vs with
  | [] => ([], false)
  | seg :: rest =>
    let e := bezierEmit order (seg :: rest)
    ((match seg with
      | [] => []
      | p :: _ => [Call.moveTo p.x p.y])
      ++ e.1.map (fun p => Call.lineTo p.x p.y), e.2)

/-- `CATMULL_ROM_BASIS_FUNCTIONS` / `CATMULL_ROM_BASIS_VECTOR` from the
source: the four tension-parameterised cubic basis polynomials at `t`. -/
def CATMULL_ROM_BASIS_VECTOR (t tension : ℚ) : List ℚ :=
  [ -tension * t ^ 3 + 2 * tension * t ^ 2 - tension * t
  , (2 - tension) * t ^ 3 + (tension - 3) * t ^ 2 + 1
  , (tension - 2) * t ^ 3 + (3 - 2 * tension) * t ^ 2 + tension * t
  , tension * t ^ 3 - tension * t ^ 2 ]

/-- One sampled Catmull-Rom point: the dot products of the x / y coordinate
lists of the 4-point neighbourhood with the basis vector. -/
def catmullRomPoint (tension : ℚ) (p0 p1 p2 p3 : Vec2) (t : ℚ) : Vec2 :=
  Vec2.mk (dotQ [p0.x, p1.x, p2.x, p3.x] (CATMULL_ROM_BASIS_VECTOR t tension))
          (dotQ [p0.y, p1.y, p2.y, p3.y] (CATMULL_ROM_BASIS_VECTOR t tension))

/-- The 101 sampled points of one Catmull-Rom segment. -/
def catmullSegmentPoints (tension : ℚ) (p0 p1 p2 p3 : Vec2) : List Vec2 :=
  sampleTs.map (catmullRomPoint tension p0 p1 p2 p3)

/-- The 4-point neighbourhoods `(vertices[i-1], …, vertices[i+2])` visited
by the loop `for (let i = 1; i < vertices.length - 2; i++)`: consecutive
4-windows advancing by one. -/
def catmullWindows : List Vec2 → List (Vec2 × Vec2 × Vec2 × Vec2)
  | p0 :: p1 :: p2 :: p3 :: rest =>
      (p0, p1, p2, p3) :: catmullWindows (p1 :: p2 :: p3 :: rest)
  | _ => []

/-- The linear branch of `path` (also the polygon vertex walk and both
fallbacks): `moveTo` the first vertex then `lineTo` each following one. -/
def linearCalls : List Vec2 → List Call
  | [] => []
  | v :: rest => Call.moveTo v.x v.y :: rest.map fun p => Call.lineTo p.x p.y

/-- The path-construction part of `path` plus the abort flag: linear walk,
bezier windows (order = `clamp(bezierOrder ?? 3, 1, 3)`), or Catmull-Rom
(tension = `catmullRomTension ?? 0.5`, falling back to the linear walk
below 4 vertices). -/
def pathBody (st : Style) (vs : List Vec2) : List Call × Bool :=
  match st.pathType.getD .linear with
  | .linear => (linearCalls vs, false)
  | .bezier => bezierBody (clampZ (st.bezierOrder.getD 3) 1 3).toNat vs
  | .catmullRom =>
    let tension := st.catmullRomTension.getD (1 / 2)
    if 4 ≤ vs.length then
      (match vs with
       | _ :: p1 :: _ =>
          Call.moveTo p1.x p1.y ::
            ((catmullWindows vs).flatMap fun w =>
              (catmullSegmentPoints tension w.1 w.2.1 w.2.2.1 w.2.2.2).map fun p =>
                Call.lineTo p.x p.y)
       | _ => [], false)
    else (linearCalls vs, false)

/-! ### Shape emitters (as surface-call traces) -/

/-- The stroke-related style application shared by every emitter:
`strokeStyle` when `strokeColor` is non-null, `lineWidth` when non-null,
`setLineDash` when `lineDash` is non-null. -/
def strokeStyleCalls (st : Style) : List Call :=
  (match st.strokeColor with
   | some c => [Call.strokeStyle (prepareColor c)]
   | none => [])
  ++ (match st.lineWidth with
      | some w => [Call.lineWidth w]
      | none => [])
  ++ (match st.lineDash with
      | some d => [Call.setLineDash d]
      | none => [])

/-- The fill-related style application of `circle`/`rectangle`/`polygon`:
`fillStyle` from `fillColor` when non-null, then overridden by the prepared
gradient when a gradient is present. -/
def fillStyleCalls (st : Style) : List Call :=
  (match st.fillColor with
   | some c => [Call.fillStyleColor (prepareColor c)]
   | none => [])
  ++ (match st.gradient with
      | some g =>
        match prepareGradient (some g) with
        | some h => [Call.fillStyleGradient h]
        | none => []
      | none => [])

/-- `line` from the source, as its surface-call trace. -/
def line (a b : Vec2) (style? : Option StyleInput) : List Call :=
  let st := getStyle style?
  [Call.save] ++ strokeStyleCalls st
    ++ (if st.batch then [] else [Call.beginPath])
    ++ [Call.moveTo a.x a.y, Call.lineTo b.x b.y]
    ++ (if st.stroke && !st.batch then [Call.stroke] else [])
    ++ [Call.restore]

/-- `cross` from the source, as its surface-call trace. -/
def cross (position : Vec2) (size : ℚ) (style? : Option StyleInput) : List Call :=
  let st := getStyle style?
  let halfSize := size / 2
  [Call.save] ++ strokeStyleCalls st
    ++ (if st.batch then [] else [Call.beginPath])
    ++ (match st.crossStyle with
        | .plus =>
          [Call.moveTo (position.x - halfSize) position.y,
           Call.lineTo (position.x + halfSize) position.y,
           Call.moveTo position.x (position.y - halfSize),
           Call.lineTo position.x (position.y + halfSize)]
        | .xShape =>
          [Call.moveTo (position.x - halfSize) (position.y - halfSize),
           Call.lineTo (position.x + halfSize) (position.y + halfSize),
           Call.moveTo (position.x - halfSize) (position.y + halfSize),
           Call.lineTo (position.x + halfSize) (position.y - halfSize)])
    ++ (if st.stroke && !st.batch then [Call.stroke] else [])
    ++ [Call.restore]

/-- The arrowhead block of `arrow` (everything inside
`if (actualStyle.arrow) { ... }`): its own save/translate/rotate bracket
around the caret (filled triangle, fill color taken from `strokeColor`),
the chevron (stroked open V), or a caller-supplied drawing function invoked
with the arrow size. -/
def arrowheadCalls (st : Style) (a b : Vec2) : List Call :=
  match st.arrow with
  | none => []
  | some ar =>
    let arrowSize := ar.size.getD 10
    let halfSize := arrowSize / 2
    let arrowType := ar.type.getD .caret
    [Call.save, Call.translate b.x b.y, Call.rotateRad (b.x - a.x) (b.y - a.y)]
    ++ (match arrowType with
        | .custom f => f arrowSize
        | .caret =>
          (match st.strokeColor with
           | some c => [Call.fillStyleColor (prepareColor c)]
           | none => [])
          ++ [Call.beginPath, Call.moveTo 0 (-halfSize), Call.lineTo arrowSize 0,
              Call.lineTo 0 halfSize, Call.closePath, Call.fill]
        | .chevron =>
          [Call.beginPath, Call.moveTo (-halfSize) (-halfSize), Call.lineTo 0 0,
           Call.lineTo (-halfSize) halfSize, Call.stroke])
    ++ [Call.restore]

/-- `arrow` from the source, as its surface-call trace: never batches, always
begins a path and strokes the shaft immediately, then draws the arrowhead. -/
def arrow (a b : Vec2) (style? : Option StyleInput) : List Call :=
  let st := getStyle style?
  [Call.save] ++ strokeStyleCalls st
    ++ [Call.beginPath, Call.moveTo a.x a.y, Call.lineTo b.x b.y, Call.stroke]
    ++ arrowheadCalls st a b
    ++ [Call.restore]

/-- `circle` from the source, as its surface-call trace. -/
def circle (center : Vec2) (radius : ℚ) (style? : Option StyleInput) : List Call :=
  let st := getStyle style?
  [Call.save] ++ fillStyleCalls st ++ strokeStyleCalls st
    ++ (if st.batch then [] else [Call.beginPath])
    ++ [Call.arc center.x center.y radius]
    ++ (if st.fill && !st.batch then [Call.fill] else [])
    ++ (if st.stroke && !st.batch then [Call.stroke] else [])
    ++ [Call.restore]

/-- `rectangle` from the source, as its surface-call trace. -/
def rectangle (position size : Vec2) (style? : Option StyleInput) : List Call :=
  let st := getStyle style?
  [Call.save] ++ fillStyleCalls st ++ strokeStyleCalls st
    ++ (if st.batch then [] else [Call.beginPath])
    ++ [if st.rounded then
          Call.roundRect position.x position.y size.x size.y (st.borderRadius.getD 1)
        else Call.rect position.x position.y size.x size.y]
    ++ (if st.fill && !st.batch then [Call.fill] else [])
    ++ (if st.stroke && !st.batch then [Call.stroke] else [])
    ++ [Call.restore]

/-- `polygon` from the source, as its surface-call trace: silent no-op below
3 vertices, otherwise the closed vertex walk. -/
def polygon (vs : List Vec2) (style? : Option StyleInput) : List Call :=
  if vs.length < 3 then []
  else
    let st := getStyle style?
    [Call.save] ++ fillStyleCalls st ++ strokeStyleCalls st
      ++ (if st.batch then [] else [Call.beginPath])
      ++ linearCalls vs ++ [Call.closePath]
      ++ (if st.fill && !st.batch then [Call.fill] else [])
      ++ (if st.stroke && !st.batch then [Call.stroke] else [])
      ++ [Call.restore]

/-- `path` from the source, as its surface-call trace: silent no-op below 2
vertices; on the bezier abort path the stroke is skipped but the final
`restore` is still issued before returning. -/
def path (vs : List Vec2) (style? : Option StyleInput) : List Call :=
  if vs.length < 2 then []
  else
    let st := getStyle style?
    let body := pathBody st vs
    [Call.save] ++ strokeStyleCalls st
      ++ (if st.batch then [] else [Call.beginPath])
      ++ body.1
      ++ (if body.2 then [] else if st.stroke && !st.batch then [Call.stroke] else [])
      ++ [Call.restore]

/-! ### The surface state machine -/

/-- One entry of the surface's current-transform composition, kept
symbolically (a rotation angle is an arctangent of the stored vector). -/
inductive XformOp
  | translated (x y : ℚ)
  | rotated (dx dy : ℚ)
  deriving DecidableEq

/-- What `fillStyle` currently holds: a color string or a gradient handle. -/
inductive FillValue
  | color (c : String)
  | grad (g : GradientHandle)
  deriving DecidableEq

/-- The style attributes touched by this library. -/
structure Attrs where
  strokeStyle : String
  fillStyle : FillValue
  lineWidth : ℚ
  lineDash : List ℚ
  deriving DecidableEq

/-- The drawing-surface state machine: current attributes, current
transform, and the save/restore stack of snapshots (head = top). -/
structure CtxState where
  attrs : Attrs
  transform : List XformOp
  stack : List (Attrs × List XformOp)
  deriving DecidableEq

/-- Apply one surface call to the state: `save` pushes a snapshot, `restore`
pops one (a no-op on an empty stack, as in the canvas specification);
attribute and transform calls update their components; path-construction
and paint calls leave this state untouched. -/
def applyCall (s : CtxState) : Call → CtxState
  | .save => { s with stack := (s.attrs, s.transform) :: s.stack }
  | .restore =>
    match s.stack with
    | [] => s
    | (a, t) :: rest => { attrs := a, transform := t, stack := rest }
  | .strokeStyle c => { s with attrs := { s.attrs with strokeStyle := c } }
  | .fillStyleColor c => { s with attrs := { s.attrs with fillStyle := .color c } }
  | .fillStyleGradient g => { s with attrs := { s.attrs with fillStyle := .grad g } }
  | .lineWidth w => { s with attrs := { s.attrs with lineWidth := w } }
  | .setLineDash d => { s with attrs := { s.attrs with lineDash := d } }
  | .translate x y => { s with transform := s.transform ++ [XformOp.translated x y] }
  | .rotateRad dx dy => { s with transform := s.transform ++ [XformOp.rotated dx dy] }
  | _ => s

/-- Run a trace of surface calls from a state. -/
def applyCalls (cs : List Call) (s : CtxState) : CtxState := cs.foldl applyCall s

/-- The targets of the `lineTo` calls of a trace, in order: the emitted
curve points. -/
def lineTos (cs : List Call) : List Vec2 :=
  cs.filterMap fun c =>
    match c with
    | .lineTo x y => some (Vec2.mk x y)
    | _ => none

/-! ### Interpreter lemmas: save/restore bracketing -/

/-- Calls that touch the save/restore stack. -/
def nonStack : Call → Bool
  | .save => false
  | .restore => false
  | _ => true

/-- A trace free of `save`/`restore` calls. -/
def noStackOps (cs : List Call) : Bool := cs.all nonStack

/-- A trace whose net effect leaves the save/restore stack untouched. -/
def stackNeutral (cs : List Call) : Prop :=
  ∀ s : CtxState, (applyCalls cs s).stack = s.stack

theorem applyCalls_nil (s : CtxState) : applyCalls [] s = s := rfl

theorem applyCalls_cons (c : Call) (cs : List Call) (s : CtxState) :
    applyCalls (c :: cs) s = applyCalls cs (applyCall s c) := rfl

theorem applyCalls_append (cs ds : List Call) (s : CtxState) :
    applyCalls (cs ++ ds) s = applyCalls ds (applyCalls cs s) := by
  simp [applyCalls]

theorem stack_applyCall (s : CtxState) (c : Call) (h : nonStack c = true) :
    (applyCall s c).stack = s.stack := by
  cases c <;> first
    | rfl
    | simp [nonStack] at h

theorem stackNeutral_of_noStackOps (cs : List Call) (h : noStackOps cs = true) :
    stackNeutral cs := by
  induction cs with
  | nil => intro s; rfl
  | cons c cs ih =>
    intro s
    rw [applyCalls_cons]
    simp only [noStackOps, List.all_cons, Bool.and_eq_true] at h
    rw [ih h.2 (applyCall s c), stack_applyCall s c h.1]

theorem stackNeutral_append {cs ds : List Call} (h1 : stackNeutral cs)
    (h2 : stackNeutral ds) : stackNeutral (cs ++ ds) := by
  intro s
  rw [applyCalls_append, h2, h1]

/-- The key bracketing fact: a `save`, any stack-neutral middle, then a
`restore` is a complete round trip of the surface state. -/
theorem bracket (mid : List Call) (h : stackNeutral mid) (s : CtxState) :
    applyCalls ([Call.save] ++ mid ++ [Call.restore]) s = s := by
  rw [applyCalls_append, applyCalls_append]
  have h2 : (applyCalls mid (applyCalls [Call.save] s)).stack =
      (s.attrs, s.transform) :: s.stack := by
    rw [h]; rfl
  show applyCall (applyCalls mid (applyCalls [Call.save] s)) Call.restore = s
  rw [show (applyCall (applyCalls mid (applyCalls [Call.save] s)) Call.restore) =
      (match (applyCalls mid (applyCalls [Call.save] s)).stack with
       | [] => applyCalls mid (applyCalls [Call.save] s)
       | (a, t) :: rest => { attrs := a, transform := t, stack := rest }) from rfl]
  rw [h2]

theorem stackNeutral_bracket (mid : List Call) (h : stackNeutral mid) :
    stackNeutral ([Call.save] ++ mid ++ [Call.restore]) := by
  intro s
  rw [bracket mid h s]

theorem noStackOps_append (cs ds : List Call) :
    noStackOps (cs ++ ds) = (noStackOps cs && noStackOps ds) :=
  List.all_append

theorem noStackOps_strokeStyleCalls (st : Style) :
    noStackOps (strokeStyleCalls st) = true := by
  unfold strokeStyleCalls
  rcases st.strokeColor with _ | c <;> rcases st.lineWidth with _ | w <;>
    rcases st.lineDash with _ | d <;> rfl

theorem noStackOps_fillStyleCalls (st : Style) :
    noStackOps (fillStyleCalls st) = true := by
  unfold fillStyleCalls
  rcases st.fillColor with _ | c <;> rcases st.gradient with _ | g <;> rfl

theorem noStackOps_linearCalls (vs : List Vec2) :
    noStackOps (linearCalls vs) = true := by
  cases vs with
  | nil => rfl
  | cons v rest =>
    simp only [linearCalls, noStackOps, List.all_cons, Bool.and_eq_true]
    refine ⟨rfl, List.all_eq_true.mpr fun c hc => ?_⟩
    obtain ⟨p, -, rfl⟩ := List.mem_map.mp hc
    rfl

theorem noStackOps_map_lineTo (ps : List Vec2) :
    noStackOps (ps.map fun p => Call.lineTo p.x p.y) = true := by
  refine List.all_eq_true.mpr fun c hc => ?_
  obtain ⟨p, -, rfl⟩ := List.mem_map.mp hc
  rfl

theorem noStackOps_pathBody (st : Style) (vs : List Vec2) :
    noStackOps (pathBody st vs).1 = true := by
  unfold pathBody
  cases st.pathType.getD .linear with
  | linear => exact noStackOps_linearCalls vs
  | bezier =>
    unfold bezierBody
    cases bezierSegments (clampZ (st.bezierOrder.getD 3) 1 3).toNat vs with
    | nil => rfl
    | cons seg rest =>
      simp only
      rw [noStackOps_append, Bool.and_eq_true]
      constructor
      · cases seg <;> rfl
      · exact noStackOps_map_lineTo _
  | catmullRom =>
    simp only
    split
    · cases vs with
      | nil => rfl
      | cons p0 t =>
        cases t with
        | nil => rfl
        | cons p1 t2 =>
          simp only [noStackOps, List.all_cons, Bool.and_eq_true]
          refine ⟨rfl, List.all_eq_true.mpr fun c hc => ?_⟩
          simp only [List.mem_flatMap, List.mem_map] at hc
          obtain ⟨w, -, p, -, rfl⟩ := hc
          rfl
    · exact noStackOps_linearCalls vs

theorem line_restores (a b : Vec2) (sty : Option StyleInput) (s : CtxState) :
    applyCalls (line a b sty) s = s := by
  apply bracket
  apply stackNeutral_of_noStackOps
  simp only [List.append_eq, List.nil_append, noStackOps_append,
    noStackOps_strokeStyleCalls, Bool.true_and, Bool.and_eq_true]
  refine ⟨⟨?_, ?_⟩, ?_⟩ <;> first | rfl | (split <;> rfl)

theorem cross_restores (p : Vec2) (size : ℚ) (sty : Option StyleInput)
    (s : CtxState) : applyCalls (cross p size sty) s = s := by
  apply bracket
  apply stackNeutral_of_noStackOps
  simp only [List.append_eq, List.nil_append, noStackOps_append,
    noStackOps_strokeStyleCalls, Bool.true_and, Bool.and_eq_true]
  refine ⟨⟨?_, ?_⟩, ?_⟩ <;> first | rfl | (split <;> rfl)

theorem circle_restores (c : Vec2) (radius : ℚ) (sty : Option StyleInput)
    (s : CtxState) : applyCalls (circle c radius sty) s = s := by
  apply bracket
  apply stackNeutral_of_noStackOps
  simp only [List.append_eq, List.nil_append, noStackOps_append,
    noStackOps_strokeStyleCalls, noStackOps_fillStyleCalls, Bool.true_and,
    Bool.and_eq_true]
  refine ⟨⟨⟨?_, ?_⟩, ?_⟩, ?_⟩ <;> first | rfl | (split <;> rfl)

theorem rectangle_restores (p sz : Vec2) (sty : Option StyleInput)
    (s : CtxState) : applyCalls (rectangle p sz sty) s = s := by
  apply bracket
  apply stackNeutral_of_noStackOps
  simp only [List.append_eq, List.nil_append, noStackOps_append,
    noStackOps_strokeStyleCalls, noStackOps_fillStyleCalls, Bool.true_and,
    Bool.and_eq_true]
  refine ⟨⟨⟨?_, ?_⟩, ?_⟩, ?_⟩ <;> first | rfl | (split <;> rfl)

theorem polygon_restores (vs : List Vec2) (sty : Option StyleInput)
    (s : CtxState) : applyCalls (polygon vs sty) s = s := by
  unfold polygon
  split
  · rfl
  apply bracket
  apply stackNeutral_of_noStackOps
  simp only [List.append_eq, List.nil_append, noStackOps_append,
    noStackOps_strokeStyleCalls, noStackOps_fillStyleCalls,
    noStackOps_linearCalls, Bool.true_and, Bool.and_true, Bool.and_eq_true,
    and_true, true_and]
  repeat' apply And.intro
  all_goals first | trivial | rfl | (split <;> first | rfl | (split <;> rfl))

theorem path_restores (vs : List Vec2) (sty : Option StyleInput)
    (s : CtxState) : applyCalls (path vs sty) s = s := by
  unfold path
  split
  · rfl
  apply bracket
  apply stackNeutral_of_noStackOps
  simp only [List.append_eq, List.nil_append, noStackOps_append,
    noStackOps_strokeStyleCalls, noStackOps_pathBody, Bool.true_and,
    Bool.and_true, Bool.and_eq_true, and_true, true_and]
  repeat' apply And.intro
  all_goals first | trivial | rfl | (split <;> first | rfl | (split <;> rfl))

/-- The style contains no caller-supplied custom arrowhead drawing function
(its arrowhead, if any, is a built-in caret or chevron or unspecified). -/
def noCustomArrow (st : Style) : Prop :=
  ∀ ar f, st.arrow = some ar → ar.type ≠ some (.custom f)

theorem arrowheadCalls_neutral (st : Style) (a b : Vec2) (h : noCustomArrow st) :
    stackNeutral (arrowheadCalls st a b) := by
  unfold arrowheadCalls
  cases har : st.arrow with
  | none => intro s; rfl
  | some ar =>
    have hbr : ∀ mid, noStackOps mid = true →
        stackNeutral ([Call.save, Call.translate b.x b.y,
          Call.rotateRad (b.x - a.x) (b.y - a.y)] ++ mid ++ [Call.restore]) := by
      intro mid hm
      exact stackNeutral_bracket _ (stackNeutral_of_noStackOps _ (by
        simp only [noStackOps, List.all_append, List.all_cons, nonStack,
          Bool.true_and, Bool.and_eq_true]
        exact hm))
    obtain ⟨ty?, sz?⟩ := ar
    cases ty? with
    | none =>
      apply hbr
      cases st.strokeColor <;> rfl
    | some ty =>
      cases ty with
      | caret =>
        apply hbr
        cases st.strokeColor <;> rfl
      | chevron => exact hbr _ rfl
      | custom f => exact absurd rfl (h ⟨some (.custom f), sz?⟩ f har)

theorem arrow_restores (a b : Vec2) (sty : Option StyleInput) (s : CtxState)
    (h : stackNeutral (arrowheadCalls (getStyle sty) a b)) :
    applyCalls (arrow a b sty) s = s := by
  apply bracket
  exact stackNeutral_append (stackNeutral_append
    (stackNeutral_of_noStackOps _ (noStackOps_strokeStyleCalls _))
    (stackNeutral_of_noStackOps _ (by rfl))) h

/-- C1, counterexample: the claim "for every emitter call the surface's saved
state equals its pre-call value" fails at a concrete `arrow` call whose style
carries a caller-supplied custom arrowhead drawing function that issues one
unmatched `save`: the final attributes keep the applied stroke style and the
save stack retains a leftover snapshot. -/
theorem c1_every_emitter_restores_counterexample :
    applyCalls
      (arrow ⟨0, 0⟩ ⟨1, 0⟩
        (some { strokeColor := some (some (.str "red"))
                arrow := some (some { type := some (.custom fun _ => [Call.save])
                                      size := none }) }))
      ⟨⟨"s0", .color "f0", 2, [3]⟩, [], []⟩
      ≠ ⟨⟨"s0", .color "f0", 2, [3]⟩, [], []⟩ := by
  decide

/-- C1, amended: for every `line`, `cross`, `circle`, `rectangle`, `polygon`
and `path` call (all vertex counts, every style, every exit path including
the early abort in the bezier branch of `path`), and for every `arrow` call
whose style carries no caller-supplied custom arrowhead drawing function,
the surface's state (style attributes, transform, save stack) after the
emitted trace equals its pre-call value: every save is matched by a restore
before return. -/
theorem c1_every_emitter_restores :
    (∀ (a b : Vec2) (sty : Option StyleInput) (s : CtxState),
        applyCalls (line a b sty) s = s) ∧
    (∀ (p : Vec2) (sz : ℚ) (sty : Option StyleInput) (s : CtxState),
        applyCalls (cross p sz sty) s = s) ∧
    (∀ (c : Vec2) (r : ℚ) (sty : Option StyleInput) (s : CtxState),
        applyCalls (circle c r sty) s = s) ∧
    (∀ (p q : Vec2) (sty : Option StyleInput) (s : CtxState),
        applyCalls (rectangle p q sty) s = s) ∧
    (∀ (vs : List Vec2) (sty : Option StyleInput) (s : CtxState),
        applyCalls (polygon vs sty) s = s) ∧
    (∀ (vs : List Vec2) (sty : Option StyleInput) (s : CtxState),
        applyCalls (path vs sty) s = s) ∧
    (∀ (a b : Vec2) (sty : Option StyleInput) (s : CtxState),
        noCustomArrow (getStyle sty) → applyCalls (arrow a b sty) s = s) := by
  refine ⟨line_restores, cross_restores, circle_restores, rectangle_restores,
    polygon_restores, path_restores, fun a b sty s h => ?_⟩
  exact arrow_restores a b sty s (arrowheadCalls_neutral _ a b h)

/-- C1, witness: the amended theorem applied at a concrete `arrow` call with
the default (caret) arrowhead, discharging the no-custom-arrowhead
hypothesis there. -/
theorem c1_every_emitter_restores_witness :
    applyCalls (arrow ⟨0, 0⟩ ⟨1, 0⟩ none) ⟨⟨"s0", .color "f0", 2, [3]⟩, [], []⟩
      = ⟨⟨"s0", .color "f0", 2, [3]⟩, [], []⟩ :=
  c1_every_emitter_restores.2.2.2.2.2.2 ⟨0, 0⟩ ⟨1, 0⟩ none _ (by
    intro ar f h1 h2
    injection h1 with h1
    rw [← h1] at h2
    simp [DEFAULT_ARROW] at h2)

/-! ### What calls the style-application and path-building phases contain -/

theorem fill_not_mem_strokeStyleCalls (st : Style) :
    Call.fill ∉ strokeStyleCalls st := by
  unfold strokeStyleCalls
  rcases st.strokeColor with _ | c <;> rcases st.lineWidth with _ | w <;>
    rcases st.lineDash with _ | d <;> simp

theorem stroke_not_mem_strokeStyleCalls (st : Style) :
    Call.stroke ∉ strokeStyleCalls st := by
  unfold strokeStyleCalls
  rcases st.strokeColor with _ | c <;> rcases st.lineWidth with _ | w <;>
    rcases st.lineDash with _ | d <;> simp

theorem fill_not_mem_fillStyleCalls (st : Style) :
    Call.fill ∉ fillStyleCalls st := by
  unfold fillStyleCalls
  rcases st.fillColor with _ | c <;> rcases st.gradient with _ | g <;>
    simp [prepareGradient]

theorem stroke_not_mem_fillStyleCalls (st : Style) :
    Call.stroke ∉ fillStyleCalls st := by
  unfold fillStyleCalls
  rcases st.fillColor with _ | c <;> rcases st.gradient with _ | g <;>
    simp [prepareGradient]

theorem linearCalls_shape (vs : List Vec2) (c : Call) (hc : c ∈ linearCalls vs) :
    (∃ x y, c = Call.moveTo x y) ∨ (∃ x y, c = Call.lineTo x y) := by
  cases vs with
  | nil => cases hc
  | cons v rest =>
    rcases List.mem_cons.mp hc with rfl | hc
    · exact Or.inl ⟨v.x, v.y, rfl⟩
    · obtain ⟨p, -, rfl⟩ := List.mem_map.mp hc
      exact Or.inr ⟨p.x, p.y, rfl⟩

/-! ### The bezier abort branch is dead code; unfolding lemmas for `pathBody` -/

theorem clamp_order_cases (b : ℤ) :
    (clampZ b 1 3).toNat = 1 ∨ (clampZ b 1 3).toNat = 2 ∨ (clampZ b 1 3).toNat = 3 := by
  unfold clampZ
  omega

/-- The sampled points of one bezier window, written with the matrix-vector
product carried out (this is what the emitted points equal because the
`mat.mulv` call always succeeds for orders 1..3). -/
def windowPoints (order : ℕ) (seg : List Vec2) : List Vec2 :=
  sampleTs.map fun t =>
    bezierCombine seg
      ((BEZIER_MATRICES order).map fun row => dotQ row (BEZIER_COEFFICIENTS t order))

theorem windowSamples_eq (order : ℕ) (h : order = 1 ∨ order = 2 ∨ order = 3)
    (seg : List Vec2) : windowSamples order seg = (windowPoints order seg).map some := by
  rcases h with rfl | rfl | rfl <;>
    · unfold windowSamples windowPoints
      rw [List.map_map]
      rfl

theorem emitUntilAbort_map_some (ps : List Vec2) :
    emitUntilAbort (ps.map some) = (ps, false) := by
  induction ps with
  | nil => rfl
  | cons p rest ih => simp [emitUntilAbort, ih]

theorem bezierEmit_no_abort (order : ℕ) (h : order = 1 ∨ order = 2 ∨ order = 3)
    (segs : List (List Vec2)) :
    bezierEmit order segs = (segs.flatMap (windowPoints order), false) := by
  induction segs with
  | nil => simp [bezierEmit]
  | cons seg rest ih =>
    rw [bezierEmit, windowSamples_eq order h, emitUntilAbort_map_some]
    simp [ih]

theorem bezierBody_of_segs_nil (order : ℕ) (vs : List Vec2)
    (h : bezierSegments order vs = []) : bezierBody order vs = ([], false) := by
  unfold bezierBody
  rw [h]

theorem bezierBody_of_segs_cons (order : ℕ)
    (ho : order = 1 ∨ order = 2 ∨ order = 3) (vs seg : List Vec2)
    (rest : List (List Vec2)) (h : bezierSegments order vs = seg :: rest) :
    bezierBody order vs =
      ((match seg with
        | [] => []
        | p :: _ => [Call.moveTo p.x p.y])
        ++ ((seg :: rest).flatMap (windowPoints order)).map fun p =>
             Call.lineTo p.x p.y, false) := by
  unfold bezierBody
  simp only [h, bezierEmit_no_abort order ho]
  cases seg <;> rfl

/-- `pathBody`'s catmull-rom branch, as its own definition for unfolding. -/
def catmullBody (tension : ℚ) (vs : List Vec2) : List Call × Bool :=
  if 4 ≤ vs.length then
    (match vs with
     | _ :: p1 :: _ =>
        Call.moveTo p1.x p1.y ::
          ((catmullWindows vs).flatMap fun w =>
            (catmullSegmentPoints tension w.1 w.2.1 w.2.2.1 w.2.2.2).map fun p =>
              Call.lineTo p.x p.y)
     | _ => [], false)
  else (linearCalls vs, false)

theorem pathBody_of_linear (st : Style) (vs : List Vec2)
    (h : st.pathType.getD .linear = .linear) :
    pathBody st vs = (linearCalls vs, false) := by
  unfold pathBody
  rw [h]

theorem pathBody_of_bezier (st : Style) (vs : List Vec2)
    (h : st.pathType.getD .linear = .bezier) :
    pathBody st vs = bezierBody (clampZ (st.bezierOrder.getD 3) 1 3).toNat vs := by
  unfold pathBody
  rw [h]

theorem pathBody_of_catmull (st : Style) (vs : List Vec2)
    (h : st.pathType.getD .linear = .catmullRom) :
    pathBody st vs = catmullBody (st.catmullRomTension.getD (1 / 2)) vs := by
  unfold pathBody catmullBody
  rw [h]

theorem pathBody_shape (st : Style) (vs : List Vec2) (c : Call)
    (hc : c ∈ (pathBody st vs).1) :
    (∃ x y, c = Call.moveTo x y) ∨ (∃ x y, c = Call.lineTo x y) := by
  cases hpt : st.pathType.getD .linear with
  | linear =>
    rw [pathBody_of_linear st vs hpt] at hc
    exact linearCalls_shape vs c hc
  | bezier =>
    rw [pathBody_of_bezier st vs hpt] at hc
    rcases hseg : bezierSegments (clampZ (st.bezierOrder.getD 3) 1 3).toNat vs with
      _ | ⟨seg, rest⟩
    · rw [bezierBody_of_segs_nil _ vs hseg] at hc
      cases hc
    · rw [bezierBody_of_segs_cons _ (clamp_order_cases _) vs seg rest hseg] at hc
      rcases List.mem_append.mp hc with hc | hc
      · cases seg with
        | nil => cases hc
        | cons p t =>
          rcases List.mem_singleton.mp hc with rfl
          exact Or.inl ⟨p.x, p.y, rfl⟩
      · obtain ⟨p, -, rfl⟩ := List.mem_map.mp hc
        exact Or.inr ⟨p.x, p.y, rfl⟩
  | catmullRom =>
    rw [pathBody_of_catmull st vs hpt] at hc
    unfold catmullBody at hc
    split at hc
    · cases vs with
      | nil => cases hc
      | cons p0 t =>
        cases t with
        | nil => cases hc
        | cons p1 t2 =>
          rcases List.mem_cons.mp hc with rfl | hc
          · exact Or.inl ⟨p1.x, p1.y, rfl⟩
          · simp only [List.mem_flatMap, List.mem_map] at hc
            obtain ⟨w, -, p, -, rfl⟩ := hc
            exact Or.inr ⟨p.x, p.y, rfl⟩
    · exact linearCalls_shape vs c hc

theorem fill_not_mem_pathBody (st : Style) (vs : List Vec2) :
    Call.fill ∉ (pathBody st vs).1 := by
  intro hc
  rcases pathBody_shape st vs _ hc with ⟨x, y, h⟩ | ⟨x, y, h⟩ <;> cases h

theorem stroke_not_mem_pathBody (st : Style) (vs : List Vec2) :
    Call.stroke ∉ (pathBody st vs).1 := by
  intro hc
  rcases pathBody_shape st vs _ hc with ⟨x, y, h⟩ | ⟨x, y, h⟩ <;> cases h

theorem fill_not_mem_linearCalls (vs : List Vec2) :
    Call.fill ∉ linearCalls vs := by
  intro hc
  rcases linearCalls_shape vs _ hc with ⟨x, y, h⟩ | ⟨x, y, h⟩ <;> cases h

theorem stroke_not_mem_linearCalls (vs : List Vec2) :
    Call.stroke ∉ linearCalls vs := by
  intro hc
  rcases linearCalls_shape vs _ hc with ⟨x, y, h⟩ | ⟨x, y, h⟩ <;> cases h

theorem pathBody_no_abort (st : Style) (vs : List Vec2) :
    (pathBody st vs).2 = false := by
  cases hpt : st.pathType.getD .linear with
  | linear => rw [pathBody_of_linear st vs hpt]
  | bezier =>
    rw [pathBody_of_bezier st vs hpt]
    rcases hseg : bezierSegments (clampZ (st.bezierOrder.getD 3) 1 3).toNat vs with
      _ | ⟨seg, rest⟩
    · rw [bezierBody_of_segs_nil _ vs hseg]
    · rw [bezierBody_of_segs_cons _ (clamp_order_cases _) vs seg rest hseg]
  | catmullRom =>
    rw [pathBody_of_catmull st vs hpt]
    unfold catmullBody
    split <;> rfl

/-- C2, counterexample: the claim "every shape emitter applies fill per the
resolved fill flag when batch is unset, in particular `line`" fails: at a
concrete `line` call whose resolved style has `fill = true`, `batch = false`
and a fill color, the emitted trace contains no `fill` call at all. -/
theorem c2_fill_then_stroke_counterexample :
    (getStyle (some { fill := some true
                      fillColor := some (some (.str "red")) })).fill = true ∧
    (getStyle (some { fill := some true
                      fillColor := some (some (.str "red")) })).batch = false ∧
    Call.fill ∉
      line ⟨0, 0⟩ ⟨1, 1⟩ (some { fill := some true
                                 fillColor := some (some (.str "red")) }) := by
  refine ⟨rfl, rfl, ?_⟩
  decide

/-- C2, amended: when the resolved style has `batch` unset, `circle`,
`rectangle` and `polygon` (≥ 3 vertices) build their path and then apply
fill (exactly when the resolved fill flag is true) followed by stroke
(exactly when the resolved stroke flag is true); `line`, `cross` and `path`
(≥ 2 vertices) instead never fill — they only apply stroke per the resolved
stroke flag after building the path. -/
theorem c2_fill_then_stroke :
    (∀ (c : Vec2) (r : ℚ) (sty : Option StyleInput),
      (getStyle sty).batch = false →
      ∃ pre, circle c r sty =
          pre ++ (if (getStyle sty).fill then [Call.fill] else [])
            ++ (if (getStyle sty).stroke then [Call.stroke] else [])
            ++ [Call.restore]
        ∧ Call.fill ∉ pre ∧ Call.stroke ∉ pre) ∧
    (∀ (p sz : Vec2) (sty : Option StyleInput),
      (getStyle sty).batch = false →
      ∃ pre, rectangle p sz sty =
          pre ++ (if (getStyle sty).fill then [Call.fill] else [])
            ++ (if (getStyle sty).stroke then [Call.stroke] else [])
            ++ [Call.restore]
        ∧ Call.fill ∉ pre ∧ Call.stroke ∉ pre) ∧
    (∀ (vs : List Vec2) (sty : Option StyleInput),
      3 ≤ vs.length → (getStyle sty).batch = false →
      ∃ pre, polygon vs sty =
          pre ++ (if (getStyle sty).fill then [Call.fill] else [])
            ++ (if (getStyle sty).stroke then [Call.stroke] else [])
            ++ [Call.restore]
        ∧ Call.fill ∉ pre ∧ Call.stroke ∉ pre) ∧
    (∀ (a b : Vec2) (sty : Option StyleInput),
      (getStyle sty).batch = false →
      Call.fill ∉ line a b sty ∧
      ∃ pre, line a b sty =
          pre ++ (if (getStyle sty).stroke then [Call.stroke] else [])
            ++ [Call.restore]
        ∧ Call.stroke ∉ pre) ∧
    (∀ (p : Vec2) (sz : ℚ) (sty : Option StyleInput),
      (getStyle sty).batch = false →
      Call.fill ∉ cross p sz sty ∧
      ∃ pre, cross p sz sty =
          pre ++ (if (getStyle sty).stroke then [Call.stroke] else [])
            ++ [Call.restore]
        ∧ Call.stroke ∉ pre) ∧
    (∀ (vs : List Vec2) (sty : Option StyleInput),
      2 ≤ vs.length → (getStyle sty).batch = false →
      Call.fill ∉ path vs sty ∧
      ∃ pre, path vs sty =
          pre ++ (if (getStyle sty).stroke then [Call.stroke] else [])
            ++ [Call.restore]
        ∧ Call.stroke ∉ pre) := by
  refine ⟨?_, ?_, ?_, ?_, ?_, ?_⟩
  · intro c r sty hb
    refine ⟨[Call.save] ++ fillStyleCalls (getStyle sty)
      ++ strokeStyleCalls (getStyle sty) ++ [Call.beginPath]
      ++ [Call.arc c.x c.y r], ?_, ?_, ?_⟩
    · simp [circle, hb, List.append_assoc]
    · simp [fill_not_mem_fillStyleCalls, fill_not_mem_strokeStyleCalls]
    · simp [stroke_not_mem_fillStyleCalls, stroke_not_mem_strokeStyleCalls]
  · intro p sz sty hb
    refine ⟨[Call.save] ++ fillStyleCalls (getStyle sty)
      ++ strokeStyleCalls (getStyle sty) ++ [Call.beginPath]
      ++ [if (getStyle sty).rounded then
            Call.roundRect p.x p.y sz.x sz.y ((getStyle sty).borderRadius.getD 1)
          else Call.rect p.x p.y sz.x sz.y], ?_, ?_, ?_⟩
    · simp [rectangle, hb, List.append_assoc]
    · simp only [List.mem_append, List.mem_singleton]
      push_neg
      refine ⟨⟨⟨⟨?_, fill_not_mem_fillStyleCalls _⟩, fill_not_mem_strokeStyleCalls _⟩, ?_⟩, ?_⟩
      · simp
      · simp
      · split <;> simp
    · simp only [List.mem_append, List.mem_singleton]
      push_neg
      refine ⟨⟨⟨⟨?_, stroke_not_mem_fillStyleCalls _⟩, stroke_not_mem_strokeStyleCalls _⟩, ?_⟩, ?_⟩
      · simp
      · simp
      · split <;> simp
  · intro vs sty h3 hb
    have hlen : ¬vs.length < 3 := by omega
    refine ⟨[Call.save] ++ fillStyleCalls (getStyle sty)
      ++ strokeStyleCalls (getStyle sty) ++ [Call.beginPath]
      ++ linearCalls vs ++ [Call.closePath], ?_, ?_, ?_⟩
    · simp [polygon, hlen, hb, List.append_assoc]
    · simp [fill_not_mem_fillStyleCalls, fill_not_mem_strokeStyleCalls,
        fill_not_mem_linearCalls]
    · simp [stroke_not_mem_fillStyleCalls, stroke_not_mem_strokeStyleCalls,
        stroke_not_mem_linearCalls]
  · intro a b sty hb
    constructor
    · simp only [line, hb, List.mem_append]
      push_neg
      refine ⟨⟨⟨⟨⟨?_, fill_not_mem_strokeStyleCalls _⟩, ?_⟩, ?_⟩, ?_⟩, ?_⟩ <;>
        first | simp | (split <;> simp)
    · refine ⟨[Call.save] ++ strokeStyleCalls (getStyle sty) ++ [Call.beginPath]
        ++ [Call.moveTo a.x a.y, Call.lineTo b.x b.y], ?_, ?_⟩
      · simp [line, hb, List.append_assoc]
      · simp [stroke_not_mem_strokeStyleCalls]
  · intro p sz sty hb
    constructor
    · simp only [cross, hb, List.mem_append]
      push_neg
      refine ⟨⟨⟨⟨⟨?_, fill_not_mem_strokeStyleCalls _⟩, ?_⟩, ?_⟩, ?_⟩, ?_⟩ <;>
        first | simp | (split <;> simp)
    · refine ⟨[Call.save] ++ strokeStyleCalls (getStyle sty) ++ [Call.beginPath]
        ++ (match (getStyle sty).crossStyle with
            | .plus =>
              [Call.moveTo (p.x - sz / 2) p.y, Call.lineTo (p.x + sz / 2) p.y,
               Call.moveTo p.x (p.y - sz / 2), Call.lineTo p.x (p.y + sz / 2)]
            | .xShape =>
              [Call.moveTo (p.x - sz / 2) (p.y - sz / 2),
               Call.lineTo (p.x + sz / 2) (p.y + sz / 2),
               Call.moveTo (p.x - sz / 2) (p.y + sz / 2),
               Call.lineTo (p.x + sz / 2) (p.y - sz / 2)]), ?_, ?_⟩
      · simp [cross, hb, List.append_assoc]
      · simp only [List.mem_append]
        push_neg
        refine ⟨⟨⟨?_, stroke_not_mem_strokeStyleCalls _⟩, ?_⟩, ?_⟩
        · simp
        · simp
        · split <;> simp
  · intro vs sty h2 hb
    have hlen : ¬vs.length < 2 := by omega
    constructor
    · simp only [path, hlen, if_false, hb, List.mem_append]
      push_neg
      refine ⟨⟨⟨⟨⟨?_, fill_not_mem_strokeStyleCalls _⟩, ?_⟩,
        fill_not_mem_pathBody _ _⟩, ?_⟩, ?_⟩
      · simp
      · simp
      · simp only [pathBody_no_abort]
        simp
      · simp
    · refine ⟨[Call.save] ++ strokeStyleCalls (getStyle sty) ++ [Call.beginPath]
        ++ (pathBody (getStyle sty) vs).1, ?_, ?_⟩
      · simp [path, hlen, hb, pathBody_no_abort, List.append_assoc]
      · simp [stroke_not_mem_strokeStyleCalls, stroke_not_mem_pathBody]

/-- C2, witness: the amended theorem applied to concrete `circle` and `line`
calls with a non-batch style, discharging the batch and length hypotheses
there. -/
theorem c2_fill_then_stroke_witness :
    (∃ pre, circle ⟨0, 0⟩ 1 (some { fill := some true }) =
        pre ++ (if (getStyle (some { fill := some true })).fill then [Call.fill] else [])
          ++ (if (getStyle (some { fill := some true })).stroke then [Call.stroke] else [])
          ++ [Call.restore]
      ∧ Call.fill ∉ pre ∧ Call.stroke ∉ pre) ∧
    (Call.fill ∉ line ⟨0, 0⟩ ⟨1, 1⟩ none ∧
      ∃ pre, line ⟨0, 0⟩ ⟨1, 1⟩ none =
          pre ++ (if (getStyle none).stroke then [Call.stroke] else [])
            ++ [Call.restore]
        ∧ Call.stroke ∉ pre) :=
  ⟨c2_fill_then_stroke.1 ⟨0, 0⟩ 1 (some { fill := some true }) rfl,
   c2_fill_then_stroke.2.2.2.1 ⟨0, 0⟩ ⟨1, 1⟩ none rfl⟩

/-- C7: resolved `lineDash`: when `lineDash` is not supplied, it is `[]` if
`lineStyle` is also not supplied (including when no style object is passed
at all), and otherwise comes from the fixed table solid → [],
dashed → [5,5], dotted → [1,3]; when `lineDash` is supplied — including
explicitly null — it is kept verbatim. -/
theorem c7_lineDash_resolution :
    ((getStyle none).lineDash = some []) ∧
    (∀ s : StyleInput, s.lineDash = none → s.lineStyle = none →
      (getStyle (some s)).lineDash = some []) ∧
    (∀ s : StyleInput, s.lineDash = none →
      (s.lineStyle = some .solid → (getStyle (some s)).lineDash = some []) ∧
      (s.lineStyle = some .dashed → (getStyle (some s)).lineDash = some [5, 5]) ∧
      (s.lineStyle = some .dotted → (getStyle (some s)).lineDash = some [1, 3])) ∧
    (∀ (s : StyleInput) (d : Option (List ℚ)), s.lineDash = some d →
      (getStyle (some s)).lineDash = d) := by
  refine ⟨rfl, ?_, ?_, ?_⟩
  · intro s h1 h2
    simp [getStyle, h1, h2]
  · intro s h1
    refine ⟨?_, ?_, ?_⟩ <;> intro h2 <;> simp [getStyle, h1, h2, DEFAULT_LINE_DASHES]
  · intro s d h1
    simp [getStyle, h1]

/-- C7, witness: the theorem applied at concrete partial styles — lineStyle
dashed with lineDash unset resolves to [5,5]; an explicitly null lineDash is
kept. -/
theorem c7_lineDash_resolution_witness :
    (getStyle (some { lineStyle := some .dashed })).lineDash = some [5, 5] ∧
    (getStyle (some { lineDash := some none })).lineDash = none :=
  ⟨(c7_lineDash_resolution.2.2.1 { lineStyle := some .dashed } rfl).2.1 rfl,
   c7_lineDash_resolution.2.2.2 { lineDash := some none } none rfl⟩

/-- C8: resolving an already-resolved style is a no-op: re-submitting the
full object `getStyle` returns (every key supplied, via `asInput`) resolves
to the identical style, field for field — including the derived `lineDash`
and the pass-through extension fields. -/
theorem c8_getStyle_idempotent (s? : Option StyleInput) :
    getStyle (some (asInput (getStyle s?))) = getStyle s? := rfl

/-- C9: `prepareColor` is total (a Lean function by construction) and: a
string input is returned unchanged; an object with `r`, `g`, `b` present and
`a` a number or absent renders as "rgba(r, g, b, a)" with `a` defaulting to
1; every other input — exactly those failing the `isColorObject` shape
check — yields "black". -/
theorem c9_prepareColor_total :
    (∀ s : String, prepareColor (.str s) = s) ∧
    (∀ r g b : ℚ, prepareColor (.obj (some r) (some g) (some b) .absent) =
      "rgba(" ++ toString r ++ ", " ++ toString g ++ ", " ++ toString b ++ ", " ++
        toString (1 : ℚ) ++ ")") ∧
    (∀ r g b a : ℚ, prepareColor (.obj (some r) (some g) (some b) (.num a)) =
      "rgba(" ++ toString r ++ ", " ++ toString g ++ ", " ++ toString b ++ ", " ++
        toString a ++ ")") ∧
    (∀ c : ColorValue, isColorObject c = false → (∀ s, c ≠ .str s) →
      prepareColor c = "black") := by
  refine ⟨fun s => rfl, fun r g b => rfl, fun r g b a => rfl, ?_⟩
  intro c h1 h2
  cases c with
  | str s => exact absurd rfl (h2 s)
  | obj r g b a =>
    rcases r with _ | r <;> rcases g with _ | g <;> rcases b with _ | b <;>
      rcases a with _ | a <;>
      first
        | rfl
        | simp [isColorObject] at h1

/-- C9, witness: the theorem applied at a malformed object (no `r`/`g`/`b`
fields), discharging the shape-check and non-string hypotheses there. -/
theorem c9_prepareColor_total_witness :
    prepareColor (.obj none none none .absent) = "black" :=
  c9_prepareColor_total.2.2.2 (.obj none none none .absent) rfl
    (fun s h => by cases h)

/-- C10: when the partial style supplies an `arrow` object whose `size`
field is absent (only a type given), the arrowhead is drawn with size 10
(caret apex at distance 10, half-height 5) and not with the default style's
size 5; the default size 5 applies exactly when the `arrow` key is omitted
from the partial style (resolving to the default caret of size 5). -/
theorem c10_arrow_size_default :
    (∀ (a b : Vec2) (s : StyleInput),
      s.arrow = some (some { type := some .caret, size := none }) →
      Call.moveTo 0 (-5) ∈ arrowheadCalls (getStyle (some s)) a b ∧
      Call.lineTo 10 0 ∈ arrowheadCalls (getStyle (some s)) a b ∧
      Call.lineTo 0 5 ∈ arrowheadCalls (getStyle (some s)) a b ∧
      Call.lineTo 5 0 ∉ arrowheadCalls (getStyle (some s)) a b) ∧
    (∀ (a b : Vec2) (s : StyleInput), s.arrow = none →
      Call.moveTo 0 (-(5 : ℚ) / 2) ∈ arrowheadCalls (getStyle (some s)) a b ∧
      Call.lineTo 5 0 ∈ arrowheadCalls (getStyle (some s)) a b ∧
      Call.lineTo 0 ((5 : ℚ) / 2) ∈ arrowheadCalls (getStyle (some s)) a b) := by
  constructor
  · intro a b s h
    have he : (getStyle (some s)).arrow =
        some { type := some .caret, size := none } := by
      simp [getStyle, h]
    unfold arrowheadCalls
    rw [he]
    rcases hsc : (getStyle (some s)).strokeColor with _ | c <;>
      · simp [hsc]
        norm_num
  · intro a b s h
    have he : (getStyle (some s)).arrow = some DEFAULT_ARROW := by
      simp [getStyle, h]
    unfold arrowheadCalls
    rw [he]
    rcases hsc : (getStyle (some s)).strokeColor with _ | c <;>
      · simp [hsc, DEFAULT_ARROW]
        norm_num

/-- C10, witness: the theorem applied at a concrete arrow style with only a
type supplied (size 10 used) and at a style omitting `arrow` (default caret
of size 5 used). -/
theorem c10_arrow_size_default_witness :
    (Call.lineTo 10 0 ∈
      arrowheadCalls
        (getStyle (some { arrow := some (some { type := some .caret
                                                size := none }) }))
        ⟨0, 0⟩ ⟨1, 0⟩) ∧
    Call.lineTo 5 0 ∈ arrowheadCalls (getStyle (some {})) ⟨0, 0⟩ ⟨1, 0⟩ :=
  ⟨(c10_arrow_size_default.1 ⟨0, 0⟩ ⟨1, 0⟩ _ rfl).2.1,
   (c10_arrow_size_default.2 ⟨0, 0⟩ ⟨1, 0⟩ {} rfl).2.1⟩

/-- C6: on 2 or 3 vertices, `path` in catmull-rom mode issues exactly the
same surface-call sequence as `path` in linear mode with the otherwise
identical style: the catmull-rom branch falls back to the linear vertex
walk below 4 vertices. -/
theorem c6_catmull_fallback_linear (vs : List Vec2) (s : StyleInput)
    (h : vs.length = 2 ∨ vs.length = 3) :
    path vs (some { s with pathType := some .catmullRom }) =
      path vs (some { s with pathType := some .linear }) := by
  have h2 : ¬vs.length < 2 := by rcases h with h | h <;> omega
  have h4 : ¬4 ≤ vs.length := by rcases h with h | h <;> omega
  have hb : pathBody (getStyle (some { s with pathType := some .catmullRom })) vs
      = pathBody (getStyle (some { s with pathType := some .linear })) vs := by
    rw [pathBody_of_catmull (getStyle (some { s with pathType := some .catmullRom }))
        vs rfl,
      pathBody_of_linear (getStyle (some { s with pathType := some .linear })) vs rfl]
    unfold catmullBody
    rw [if_neg h4]
  simp only [path, if_neg h2]
  rw [hb]
  exact rfl

/-- C6, witness: the theorem applied at two concrete vertices and the empty
partial style, discharging the length hypothesis there. -/
theorem c6_catmull_fallback_linear_witness :
    path [⟨0, 0⟩, ⟨1, 1⟩] (some { ({} : StyleInput) with pathType := some .catmullRom }) =
      path [⟨0, 0⟩, ⟨1, 1⟩] (some { ({} : StyleInput) with pathType := some .linear }) :=
  c6_catmull_fallback_linear [⟨0, 0⟩, ⟨1, 1⟩] {} (Or.inl rfl)

/-! ### Extracting the emitted curve points from a `path` trace -/

theorem lineTos_append (xs ys : List Call) :
    lineTos (xs ++ ys) = lineTos xs ++ lineTos ys := by
  unfold lineTos
  exact List.filterMap_append xs ys _

theorem lineTos_strokeStyleCalls (st : Style) :
    lineTos (strokeStyleCalls st) = [] := by
  unfold strokeStyleCalls
  rcases st.strokeColor with _ | c <;> rcases st.lineWidth with _ | w <;>
    rcases st.lineDash with _ | d <;> rfl

theorem lineTos_cons_moveTo (x y : ℚ) (l : List Call) :
    lineTos (Call.moveTo x y :: l) = lineTos l := rfl

theorem lineTos_map_lineTo (ps : List Vec2) :
    lineTos (ps.map fun p => Call.lineTo p.x p.y) = ps := by
  induction ps with
  | nil => rfl
  | cons p rest ih =>
    show Vec2.mk p.x p.y :: lineTos (rest.map fun p => Call.lineTo p.x p.y) = p :: rest
    rw [ih]

/-- The emitted curve points of a `path` call are exactly the `lineTo`
targets of its path-construction body. -/
theorem lineTos_path (vs : List Vec2) (sty : Option StyleInput)
    (h2 : 2 ≤ vs.length) :
    lineTos (path vs sty) = lineTos (pathBody (getStyle sty) vs).1 := by
  have hlen : ¬vs.length < 2 := by omega
  simp only [path, if_neg hlen, lineTos_append, lineTos_strokeStyleCalls,
    pathBody_no_abort]
  have h1 : lineTos [Call.save] = [] := rfl
  have h3 : lineTos [Call.restore] = [] := rfl
  have h4 : lineTos (if (getStyle sty).batch then [] else [Call.beginPath]) = [] := by
    split <;> rfl
  have h5 : lineTos (if false = true then []
      else if (getStyle sty).stroke && !(getStyle sty).batch then [Call.stroke]
      else []) = [] := by
    split
    · rfl
    · split <;> rfl
  rw [h1, h4, h5, h3]
  simp

/-! ### The cubic bezier window, evaluated -/

/-- The matrix-form sample of a 4-point window equals the Bernstein-form
cubic bezier polynomial: the fixed `BEZIER_MATRICES[3]` really encodes the
cubic Bezier basis. -/
theorem cubic_window_eval (a b c d : Vec2) (t : ℚ) :
    bezierCombine [a, b, c, d]
      ((BEZIER_MATRICES 3).map fun row => dotQ row (BEZIER_COEFFICIENTS t 3)) =
    Vec2.mk ((1 - t) ^ 3 * a.x + 3 * t * (1 - t) ^ 2 * b.x
        + 3 * t ^ 2 * (1 - t) * c.x + t ^ 3 * d.x)
      ((1 - t) ^ 3 * a.y + 3 * t * (1 - t) ^ 2 * b.y
        + 3 * t ^ 2 * (1 - t) * c.y + t ^ 3 * d.y) := by
  simp [bezierCombine, dotQ, BEZIER_MATRICES, BEZIER_COEFFICIENTS, Vec2.mk.injEq]
  constructor <;> ring

theorem bezierSegments_cubic4 (a b c d : Vec2) :
    bezierSegments 3 [a, b, c, d] = [[a, b, c, d]] := by
  rw [bezierSegments]
  norm_num
  rw [bezierSegments]
  norm_num

theorem windowPoints_cubic (a b c d : Vec2) :
    windowPoints 3 [a, b, c, d] = sampleTs.map (fun t =>
      Vec2.mk ((1 - t) ^ 3 * a.x + 3 * t * (1 - t) ^ 2 * b.x
          + 3 * t ^ 2 * (1 - t) * c.x + t ^ 3 * d.x)
        ((1 - t) ^ 3 * a.y + 3 * t * (1 - t) ^ 2 * b.y
          + 3 * t ^ 2 * (1 - t) * c.y + t ^ 3 * d.y)) := by
  unfold windowPoints
  exact List.map_congr_left fun t _ => cubic_window_eval a b c d t

/-- The binary64 loop runs exactly 100 times. -/
theorem sampleTsScaled_length : sampleTsScaled.length = 100 := by decide

theorem sampleTs_length : sampleTs.length = 100 := by
  unfold sampleTs
  rw [List.length_map, sampleTsScaled_length]

theorem sampleTsScaled_head : sampleTsScaled.head? = some 0 := by decide

/-- The first sampled parameter is exactly 0. -/
theorem sampleTs_head : sampleTs.head? = some 0 := by
  unfold sampleTs
  rw [List.head?_map, sampleTsScaled_head]
  norm_num

theorem pow59_not_mem_scaled : (2 ^ 59 : ℕ) ∉ sampleTsScaled := by decide

/-- The parameter 1 is never sampled: the accumulated `t` jumps from
t₉₉ ≈ 0.99 to ≈ 1.0000000000000007, which fails the `t <= 1` guard. -/
theorem one_not_mem_sampleTs : (1 : ℚ) ∉ sampleTs := by
  unfold sampleTs
  intro h
  obtain ⟨T, hT, hval⟩ := List.mem_map.mp h
  have h59 : ((2 : ℚ) ^ 59) ≠ 0 := by norm_num
  rw [div_eq_one_iff_eq h59] at hval
  have hT59 : T = 2 ^ 59 := by exact_mod_cast hval
  rw [hT59] at hT
  exact pow59_not_mem_scaled hT

/-- The emitted curve points of the four-vertex cubic call on the collinear
control points (0,0), (1,0), (2,0), (3,0) are exactly (3t, 0) over the
sampled parameters (for these points the Bernstein cubic collapses to 3t). -/
theorem c3_collinear_trace :
    lineTos (path [⟨0, 0⟩, ⟨1, 0⟩, ⟨2, 0⟩, ⟨3, 0⟩]
        (some { pathType := some .bezier, bezierOrder := some 3 }))
      = sampleTs.map fun t => Vec2.mk (3 * t) 0 := by
  have hpt : ((getStyle
      (some ({ pathType := some .bezier, bezierOrder := some 3 }
        : StyleInput))).pathType.getD .linear) = .bezier := rfl
  have hord : (clampZ ((getStyle
      (some ({ pathType := some .bezier, bezierOrder := some 3 }
        : StyleInput))).bezierOrder.getD 3) 1 3).toNat = 3 := rfl
  rw [lineTos_path [⟨0, 0⟩, ⟨1, 0⟩, ⟨2, 0⟩, ⟨3, 0⟩]
      (some { pathType := some .bezier, bezierOrder := some 3 }) (by norm_num),
    pathBody_of_bezier
      (getStyle (some { pathType := some .bezier, bezierOrder := some 3 }))
      [⟨0, 0⟩, ⟨1, 0⟩, ⟨2, 0⟩, ⟨3, 0⟩] hpt,
    hord,
    bezierBody_of_segs_cons 3 (Or.inr (Or.inr rfl)) _ _ _
      (bezierSegments_cubic4 ⟨0, 0⟩ ⟨1, 0⟩ ⟨2, 0⟩ ⟨3, 0⟩)]
  have hfm : [[(⟨0, 0⟩ : Vec2), ⟨1, 0⟩, ⟨2, 0⟩, ⟨3, 0⟩]].flatMap (windowPoints 3)
      = windowPoints 3 [⟨0, 0⟩, ⟨1, 0⟩, ⟨2, 0⟩, ⟨3, 0⟩] := by
    simp
  rw [show ((match ([⟨0, 0⟩, ⟨1, 0⟩, ⟨2, 0⟩, ⟨3, 0⟩] : List Vec2) with
      | [] => ([] : List Call)
      | p :: _ => [Call.moveTo p.x p.y])
      ++ ([[(⟨0, 0⟩ : Vec2), ⟨1, 0⟩, ⟨2, 0⟩, ⟨3, 0⟩]].flatMap
        (windowPoints 3)).map fun p => Call.lineTo p.x p.y, false).1
    = Call.moveTo (Vec2.mk 0 0).x (Vec2.mk 0 0).y ::
      ([[(⟨0, 0⟩ : Vec2), ⟨1, 0⟩, ⟨2, 0⟩, ⟨3, 0⟩]].flatMap
        (windowPoints 3)).map (fun p => Call.lineTo p.x p.y)
    from rfl, hfm, windowPoints_cubic, lineTos_cons_moveTo, lineTos_map_lineTo]
  refine List.map_congr_left fun t _ => ?_
  rw [Vec2.mk.injEq]
  constructor <;> (simp; try ring)

/-- C3, the code evaluated at the failing input: under binary64 accumulation
the sampling loop `for (let t = 0; t <= 1; t += 0.01)` terminates after 100
iterations without ever sampling t = 1, so a four-vertex cubic `path` call
emits 100 curve points — not the claimed 101 — whose first point is still
vertices[0] (t = 0 is exact) but whose last point is not vertices[3]. -/
theorem c3_bezier_cubic_four_vertices_bug :
    (lineTos (path [⟨0, 0⟩, ⟨1, 0⟩, ⟨2, 0⟩, ⟨3, 0⟩]
      (some { pathType := some .bezier, bezierOrder := some 3 }))).length
      = 100 ∧
    (lineTos (path [⟨0, 0⟩, ⟨1, 0⟩, ⟨2, 0⟩, ⟨3, 0⟩]
      (some { pathType := some .bezier, bezierOrder := some 3 }))).head?
      = some ⟨0, 0⟩ ∧
    (lineTos (path [⟨0, 0⟩, ⟨1, 0⟩, ⟨2, 0⟩, ⟨3, 0⟩]
      (some { pathType := some .bezier, bezierOrder := some 3 }))).getLast?
      ≠ some ⟨3, 0⟩ := by
  refine ⟨?_, ?_, ?_⟩
  · rw [c3_collinear_trace, List.length_map, sampleTs_length]
  · rw [c3_collinear_trace, List.head?_map, sampleTs_head, Option.map_some']
    simp
  · rw [c3_collinear_trace, List.getLast?_map]
    intro heq
    obtain ⟨t, hlast, hf⟩ := Option.map_eq_some'.mp heq
    rw [Vec2.mk.injEq] at hf
    have ht1 : t = 1 := by
      have h3 := hf.1
      linarith
    exact one_not_mem_sampleTs (ht1 ▸ List.mem_of_getLast?_eq_some hlast)

/-! ### Bezier window bookkeeping -/

/-- The number of complete windows the bezier loop
`for (let i = 0; i + order + 1 <= length; i += order)` visits. -/
def numWindows (order len : ℕ) : ℕ :=
  if order + 1 ≤ len then (len - (order + 1)) / order + 1 else 0

theorem numWindows_pos (order len : ℕ) (h : order + 1 ≤ len) :
    numWindows order len = (len - (order + 1)) / order + 1 := by
  unfold numWindows
  rw [if_pos h]

theorem numWindows_neg (order len : ℕ) (h : ¬order + 1 ≤ len) :
    numWindows order len = 0 := by
  unfold numWindows
  rw [if_neg h]

theorem bezierSegments_eq_aux (order : ℕ) (ho : 1 ≤ order) :
    ∀ (N : ℕ) (vs : List Vec2), vs.length ≤ N →
      bezierSegments order vs =
        (List.range (numWindows order vs.length)).map fun k =>
          (vs.drop (order * k)).take (order + 1) := by
  intro N
  induction N with
  | zero =>
    intro vs hv
    rw [bezierSegments, dif_neg (by omega)]
    rw [show numWindows order vs.length = 0 from by
      unfold numWindows; rw [if_neg (by omega)]]
    rfl
  | succ N ih =>
    intro vs hv
    by_cases hc : order + 1 ≤ vs.length
    · rw [bezierSegments, dif_pos ⟨ho, hc⟩,
        ih (vs.drop order) (by rw [List.length_drop]; omega)]
      have hK : numWindows order vs.length
          = numWindows order (vs.drop order).length + 1 := by
        rw [List.length_drop]
        unfold numWindows
        rw [if_pos hc]
        by_cases h2 : order + 1 ≤ vs.length - order
        · rw [if_pos h2]
          have hrw : vs.length - (order + 1)
              = (vs.length - order - (order + 1)) + order := by omega
          rw [hrw, Nat.add_div_right _ (by omega)]
        · rw [if_neg h2]
          have hlt : vs.length - (order + 1) < order := by omega
          rw [Nat.div_eq_of_lt hlt]
      rw [hK, List.range_succ_eq_map, List.map_cons, List.map_map]
      congr 1
      apply List.map_congr_left
      intro k _
      simp only [Function.comp_apply, List.drop_drop]
      congr 2
      rw [Nat.succ_eq_add_one]
      ring
    · rw [bezierSegments, dif_neg (fun h => hc h.2)]
      rw [show numWindows order vs.length = 0 from by
        unfold numWindows; rw [if_neg hc]]
      rfl

/-- The windows taken by the bezier loop are exactly the slices of size
`order + 1` starting at indices 0, order, 2·order, … while the window still
fits. -/
theorem bezierSegments_eq (order : ℕ) (ho : 1 ≤ order) (vs : List Vec2) :
    bezierSegments order vs =
      (List.range (numWindows order vs.length)).map fun k =>
        (vs.drop (order * k)).take (order + 1) :=
  bezierSegments_eq_aux order ho vs.length vs le_rfl

/-- Trailing vertices beyond the last complete window are never read: the
windows of the first `order · K + 1` vertices are the windows of the whole
list. -/
theorem bezierSegments_take (order : ℕ) (ho : 1 ≤ order) (vs : List Vec2) :
    bezierSegments order
        (vs.take (order * numWindows order vs.length + 1)) =
      bezierSegments order vs := by
  by_cases hc : order + 1 ≤ vs.length
  · have hK1 : 1 ≤ numWindows order vs.length := by
      rw [numWindows_pos _ _ hc]
      exact Nat.succ_le_succ (Nat.zero_le _)
    have hle : order * numWindows order vs.length + 1 ≤ vs.length := by
      rw [numWindows_pos _ _ hc]
      calc order * ((vs.length - (order + 1)) / order + 1) + 1
          = (vs.length - (order + 1)) / order * order + (order + 1) := by ring
        _ ≤ (vs.length - (order + 1)) + (order + 1) :=
            Nat.add_le_add_right (Nat.div_mul_le_self _ _) _
        _ = vs.length := by omega
    have hlen : (vs.take (order * numWindows order vs.length + 1)).length
        = order * numWindows order vs.length + 1 := by
      rw [List.length_take]
      omega
    rw [bezierSegments_eq order ho vs, bezierSegments_eq order ho _, hlen]
    have hKK : numWindows order (order * numWindows order vs.length + 1)
        = numWindows order vs.length := by
      have hcond : order + 1 ≤ order * numWindows order vs.length + 1 := by
        have h6 := Nat.mul_le_mul_left order hK1
        rw [Nat.mul_one] at h6
        omega
      rw [numWindows_pos _ _ hcond]
      have h3 : order * numWindows order vs.length + 1 - (order + 1)
          = order * (numWindows order vs.length - 1) := by
        rcases Nat.exists_eq_add_of_le hK1 with ⟨m, hm⟩
        rw [hm]
        have h7 : order * (1 + m) = order + order * m := by ring
        have h8 : 1 + m - 1 = m := by omega
        rw [h7, h8]
        omega
      rw [h3, Nat.mul_div_cancel_left _ (show 0 < order by omega)]
      omega
    rw [hKK]
    apply List.map_congr_left
    intro k hk
    rw [List.mem_range] at hk
    rw [List.drop_take, List.take_take]
    congr 1
    have h5 : order * k + order ≤ order * numWindows order vs.length := by
      have h6 : order * (k + 1) ≤ order * numWindows order vs.length :=
        Nat.mul_le_mul_left order (by omega)
      have h7 : order * (k + 1) = order * k + order := by ring
      omega
    omega
  · have hK0 : numWindows order vs.length = 0 := by
      unfold numWindows
      rw [if_neg hc]
    rw [hK0]
    rw [bezierSegments, dif_neg (by
      rw [List.length_take]
      omega), bezierSegments, dif_neg (fun h => hc h.2)]

theorem length_windowPoints (order : ℕ) (seg : List Vec2) :
    (windowPoints order seg).length = 100 := by
  unfold windowPoints
  rw [List.length_map, sampleTs_length]

theorem length_flatMap_windowPoints (order : ℕ) (segs : List (List Vec2)) :
    (segs.flatMap (windowPoints order)).length = 100 * segs.length := by
  induction segs with
  | nil => rfl
  | cons seg rest ih =>
    rw [List.flatMap_cons, List.length_append, length_windowPoints, ih,
      List.length_cons, Nat.mul_succ]
    omega

/-- The emitted curve points of the bezier branch are the concatenation of
the sampled points of its windows. -/
theorem lineTos_bezierBody (order : ℕ)
    (ho : order = 1 ∨ order = 2 ∨ order = 3) (vs : List Vec2) :
    lineTos (bezierBody order vs).1 =
      (bezierSegments order vs).flatMap (windowPoints order) := by
  rcases hseg : bezierSegments order vs with _ | ⟨seg, rest⟩
  · rw [bezierBody_of_segs_nil _ _ hseg]
    rfl
  · rw [bezierBody_of_segs_cons _ ho _ _ _ hseg]
    cases seg with
    | nil =>
      show lineTos ([] ++ _) = _
      rw [List.nil_append, lineTos_map_lineTo]
    | cons p t =>
      show lineTos ([Call.moveTo p.x p.y] ++ _) = _
      rw [lineTos_append, lineTos_map_lineTo]
      rfl

/-- C4: with pathType bezier and any bezierOrder `bz`, `path` uses effective
order n = clamp(bz, 1, 3); it consumes the vertex list in windows of size
n + 1 starting at 0, n, 2n, … while `start + n + 1 ≤ length` (the windows
are exactly those slices); trailing vertices beyond the last complete window
contribute to no emitted curve point (the body built from the first
n·K + 1 vertices is identical); the emitted curve points number 100 per
complete window (the binary64 sampling loop runs 100 times per window); and
no error is raised — in particular the abort flag of the body is never
set. -/
theorem c4_bezier_windowing (bz : ℤ) (vs : List Vec2) (s : StyleInput)
    (h1 : s.pathType = some .bezier) (h2 : s.bezierOrder = some bz) :
    pathBody (getStyle (some s)) vs = bezierBody (clampZ bz 1 3).toNat vs ∧
    bezierSegments (clampZ bz 1 3).toNat vs =
      (List.range (numWindows (clampZ bz 1 3).toNat vs.length)).map (fun k =>
        (vs.drop ((clampZ bz 1 3).toNat * k)).take ((clampZ bz 1 3).toNat + 1)) ∧
    bezierBody (clampZ bz 1 3).toNat
        (vs.take ((clampZ bz 1 3).toNat
          * numWindows (clampZ bz 1 3).toNat vs.length + 1)) =
      bezierBody (clampZ bz 1 3).toNat vs ∧
    (lineTos (pathBody (getStyle (some s)) vs).1).length =
      100 * numWindows (clampZ bz 1 3).toNat vs.length ∧
    (pathBody (getStyle (some s)) vs).2 = false := by
  have hcases : (clampZ bz 1 3).toNat = 1 ∨ (clampZ bz 1 3).toNat = 2 ∨
      (clampZ bz 1 3).toNat = 3 := clamp_order_cases bz
  have ho1 : 1 ≤ (clampZ bz 1 3).toNat := by rcases hcases with h | h | h <;> omega
  have hpt : (getStyle (some s)).pathType.getD .linear = .bezier := by
    show s.pathType.getD .linear = .bezier
    rw [h1]
    rfl
  have hbo : (getStyle (some s)).bezierOrder = some bz := h2
  have hbody : pathBody (getStyle (some s)) vs
      = bezierBody (clampZ bz 1 3).toNat vs := by
    rw [pathBody_of_bezier _ _ hpt, hbo]
    rfl
  refine ⟨hbody, bezierSegments_eq _ ho1 vs, ?_, ?_, pathBody_no_abort _ _⟩
  · unfold bezierBody
    rw [bezierSegments_take _ ho1 vs]
  · rw [hbody, lineTos_bezierBody _ hcases, length_flatMap_windowPoints,
      bezierSegments_eq _ ho1 vs, List.length_map, List.length_range]

/-- C4, witness: the theorem applied at a concrete order-2 style and six
vertices (two complete quadratic windows, one trailing vertex dropped),
discharging the style hypotheses there. -/
theorem c4_bezier_windowing_witness :
    (lineTos (pathBody
      (getStyle (some { pathType := some .bezier, bezierOrder := some 2 }))
      [⟨0, 0⟩, ⟨1, 2⟩, ⟨3, 1⟩, ⟨4, 4⟩, ⟨5, 5⟩, ⟨6, 0⟩]).1).length =
      100 * numWindows (clampZ 2 1 3).toNat 6 :=
  (c4_bezier_windowing 2 [⟨0, 0⟩, ⟨1, 2⟩, ⟨3, 1⟩, ⟨4, 4⟩, ⟨5, 5⟩, ⟨6, 0⟩]
    { pathType := some .bezier, bezierOrder := some 2 } rfl rfl).2.2.2.1

/-! ### Catmull-Rom segment evaluation -/

/-- The first sampled parameter is exactly 0 (so each segment's t = 0
sample, which the tension basis collapses to the window's second point, is
really emitted). -/
theorem zero_mem_sampleTs : (0 : ℚ) ∈ sampleTs := by
  unfold sampleTs
  refine List.mem_map.mpr ⟨0, ?_, by norm_num⟩
  decide

theorem lineTos_flatMap_segments (tension : ℚ)
    (ws : List (Vec2 × Vec2 × Vec2 × Vec2)) :
    lineTos (ws.flatMap fun w =>
      (catmullSegmentPoints tension w.1 w.2.1 w.2.2.1 w.2.2.2).map fun p =>
        Call.lineTo p.x p.y) =
    ws.flatMap fun w => catmullSegmentPoints tension w.1 w.2.1 w.2.2.1 w.2.2.2 := by
  induction ws with
  | nil => rfl
  | cons w rest ih =>
    rw [List.flatMap_cons, List.flatMap_cons, lineTos_append,
      lineTos_map_lineTo, ih]

/-- On four equally spaced collinear control points with the default tension
1/2, the sampled Catmull-Rom segment is the straight piece x = 1 + t. -/
theorem catmull_collinear_eval (t : ℚ) :
    catmullRomPoint (1 / 2) ⟨0, 0⟩ ⟨1, 0⟩ ⟨2, 0⟩ ⟨3, 0⟩ t = ⟨1 + t, 0⟩ := by
  unfold catmullRomPoint CATMULL_ROM_BASIS_VECTOR dotQ
  rw [Vec2.mk.injEq]
  constructor <;> (simp; try ring)

/-- C5, the code evaluated at the failing input: at the four collinear
vertices (0,0), (1,0), (2,0), (3,0) with pathType catmull-rom and the
default tension, the emitted curve points are exactly (1 + t, 0) over the
sampled parameters.  Vertices[1] = (1,0) is emitted (t = 0 is sampled
exactly), but the segment carries only 100 points — not the claimed 101 —
and vertices[length−2] = (2,0) is never emitted, because it is the t = 1
sample, which the binary64 loop never produces. -/
theorem c5_catmull_interior_bug :
    (lineTos (pathBody (getStyle (some { pathType := some .catmullRom }))
      [⟨0, 0⟩, ⟨1, 0⟩, ⟨2, 0⟩, ⟨3, 0⟩]).1).length = 100 ∧
    Vec2.mk 1 0 ∈ lineTos (pathBody
      (getStyle (some { pathType := some .catmullRom }))
      [⟨0, 0⟩, ⟨1, 0⟩, ⟨2, 0⟩, ⟨3, 0⟩]).1 ∧
    Vec2.mk 2 0 ∉ lineTos (pathBody
      (getStyle (some { pathType := some .catmullRom }))
      [⟨0, 0⟩, ⟨1, 0⟩, ⟨2, 0⟩, ⟨3, 0⟩]).1 := by
  have hconc : lineTos (pathBody
      (getStyle (some { pathType := some .catmullRom }))
      [⟨0, 0⟩, ⟨1, 0⟩, ⟨2, 0⟩, ⟨3, 0⟩]).1
      = sampleTs.map (catmullRomPoint (1 / 2) ⟨0, 0⟩ ⟨1, 0⟩ ⟨2, 0⟩ ⟨3, 0⟩) := by
    have heq : (pathBody (getStyle (some { pathType := some .catmullRom }))
        [⟨0, 0⟩, ⟨1, 0⟩, ⟨2, 0⟩, ⟨3, 0⟩]).1
        = Call.moveTo 1 0 ::
          ([((⟨0, 0⟩ : Vec2), (⟨1, 0⟩ : Vec2), (⟨2, 0⟩ : Vec2),
            (⟨3, 0⟩ : Vec2))].flatMap fun w =>
            (catmullSegmentPoints (1 / 2) w.1 w.2.1 w.2.2.1 w.2.2.2).map fun p =>
              Call.lineTo p.x p.y) := rfl
    rw [heq, lineTos_cons_moveTo, lineTos_flatMap_segments]
    show catmullSegmentPoints (1 / 2) ⟨0, 0⟩ ⟨1, 0⟩ ⟨2, 0⟩ ⟨3, 0⟩ ++ [] = _
    rw [List.append_nil]
    rfl
  have hmap : lineTos (pathBody
      (getStyle (some { pathType := some .catmullRom }))
      [⟨0, 0⟩, ⟨1, 0⟩, ⟨2, 0⟩, ⟨3, 0⟩]).1
      = sampleTs.map fun t => Vec2.mk (1 + t) 0 := by
    rw [hconc]
    exact List.map_congr_left fun t _ => catmull_collinear_eval t
  refine ⟨?_, ?_, ?_⟩
  · rw [hmap, List.length_map, sampleTs_length]
  · rw [hmap]
    refine List.mem_map.mpr ⟨0, zero_mem_sampleTs, ?_⟩
    rw [add_zero]
  · rw [hmap]
    intro hmem
    obtain ⟨t, ht, heq⟩ := List.mem_map.mp hmem
    rw [Vec2.mk.injEq] at heq
    have ht1 : t = 1 := by
      have h1 := heq.1
      linarith
    exact one_not_mem_sampleTs (ht1 ▸ ht)

end CanvasHelpers
